import Mathlib

/-!
Verification of the retrieval-and-validation core of the pinescript-ai
repository: the BM25 scorer (`src/lib/rag/bm25.ts`), the RAG search
orchestrator (`src/lib/rag/search.ts`), and the static validator
(`src/lib/validator/*`), shallowly embedded in Lean.

Strings are modelled as `String` / `List Char`; JavaScript numbers are
modelled as `ℚ` (exact arithmetic in place of IEEE floats); JavaScript
`Record` lookup with `|| 0` defaulting is modelled as a total function
`String → ℚ`; regular-expression `test`/`match` calls are modelled by
explicit position-scanning functions that follow the ordered-alternation
and greedy-quantifier semantics of the original patterns.
-/

namespace PineAI

/-- Character class `\w` = `[A-Za-z0-9_]` of JavaScript regexes. -/
def isWordChar (c : Char) : Bool :=
  ('a' ≤ c && c ≤ 'z') || ('A' ≤ c && c ≤ 'Z') || ('0' ≤ c && c ≤ '9') || c == '_'

/-- Character class `\s` of JavaScript regexes, restricted to its ASCII part
(space, tab, newline, carriage return, vertical tab, form feed). -/
def isSpaceChar (c : Char) : Bool :=
  c == ' ' || c == '\t' || c == '\n' || c == '\r' || c == '\x0b' || c == '\x0c'

/-- The characters kept by the tokenizer's character class `[a-z0-9_.]`. -/
def isTokenChar (c : Char) : Bool :=
  ('a' ≤ c && c ≤ 'z') || ('0' ≤ c && c ≤ '9') || c == '_' || c == '.'

/-- The `String.prototype.trim` (ASCII whitespace): drop whitespace at both ends. -/
def trimChars (l : List Char) : List Char :=
  ((l.dropWhile isSpaceChar).reverse.dropWhile isSpaceChar).reverse

/-- The `code.split("\n")`: split into lines; always at least one (possibly
empty) group, one extra empty group for a trailing newline. -/
def splitLines : List Char → List (List Char)
  | [] => [[]]
  | c :: rest =>
    if c = '\n' then [] :: splitLines rest
    else
      match splitLines rest with
      | [] => [[c]]
      | l :: ls => (c :: l) :: ls

/-- Split a character list into maximal runs of non-space characters
(the `split(/\s+/)` of the tokenizer, after empty pieces are filtered). -/
def spaceGroups : List Char → List Char → List (List Char)
  | [], acc => if acc.isEmpty then [] else [acc.reverse]
  | c :: rest, acc =>
    if c = ' ' then
      if acc.isEmpty then spaceGroups rest [] else acc.reverse :: spaceGroups rest []
    else spaceGroups rest (c :: acc)

/-- The tokenizer of `search.ts` / `process-docs.ts`: lowercase, replace every
character outside `[a-z0-9_.]` by a space, split on whitespace, keep tokens of
length `> 1`. -/
def tokenize (text : String) : List String :=
  let cleaned := text.data.map fun c0 =>
    let c := c0.toLower
    if isTokenChar c then c else ' '
  ((spaceGroups cleaned []).filter (fun t => t.length > 1)).map fun t => ⟨t⟩

/-- The `scoreBM25` of `src/lib/rag/bm25.ts`: BM25 score of a document's term
list against a query's term list.  `idf` models the `Record` lookup
`idf[term] || 0`; the `tf` map of the source is the multiset count of the
term in `docTerms`. -/
def scoreBM25 (queryTerms docTerms : List String) (idf : String → ℚ)
    (avgDl : ℚ) (k1 : ℚ) (b : ℚ) : ℚ :=
  if docTerms.length = 0 then 0
  else
    (queryTerms.map fun term =>
      if docTerms.count term = 0 then 0
      else
        let tf : ℚ := docTerms.count term
        let dl : ℚ := docTerms.length
        idf term * (tf * (k1 + 1)) / (tf + k1 * (1 - b + b * (dl / avgDl)))).sum

/-- The default parameter values `k1 = 1.5`, `b = 0.75` of the source. -/
def scoreBM25Default (queryTerms docTerms : List String) (idf : String → ℚ)
    (avgDl : ℚ) : ℚ :=
  scoreBM25 queryTerms docTerms idf avgDl (3/2) (3/4)

/-- The summand contributed by one occurrence of a query term in the
accumulation loop of `scoreBM25` (zero when the term is absent from the
document). -/
def bm25Contrib (idf : String → ℚ) (k1 b avgDl : ℚ) (docTerms : List String)
    (term : String) : ℚ :=
  if docTerms.count term = 0 then 0
  else
    let tf : ℚ := docTerms.count term
    let dl : ℚ := docTerms.length
    idf term * (tf * (k1 + 1)) / (tf + k1 * (1 - b + b * (dl / avgDl)))

/-! ### Function-mention extraction (`extractFunctionMentions` of `search.ts`)

The two global regexes of the source are modelled by left-to-right scans that
attempt a match at each position (honouring the `\b` assertions via the
word-character status of the preceding character) and, on success, emit the
matched substring and resume after it, exactly as a JavaScript global match
does.  Alternations are tried in the written order, with backtracking to the
next alternative when the remainder of the pattern fails. -/

/-- The namespace alternation of the first regex of `extractFunctionMentions`:
`ta|math|str|array|matrix|map|request|ticker|timeframe|chart|runtime|log|strategy|input|color`. -/
def MENTION_NAMESPACES : List (List Char) :=
  ["ta", "math", "str", "array", "matrix", "map", "request", "ticker",
   "timeframe", "chart", "runtime", "log", "strategy", "input",
   "color"].map String.data

/-- The standalone-function alternation of the second regex of
`extractFunctionMentions`: `plot|hline|fill|bgcolor|barcolor|plotshape|indicator|strategy|alert`. -/
def MENTION_STANDALONE : List (List Char) :=
  ["plot", "hline", "fill", "bgcolor", "barcolor", "plotshape", "indicator",
   "strategy", "alert"].map String.data

/-- Try the namespace alternation at the current position: the first
alternative `ns` for which the full pattern `ns\.\w+` matches wins, the
`\w+` being greedy.  Returns the matched characters and the remainder. -/
def tryNamespaceMention : List (List Char) → List Char →
    Option (List Char × List Char)
  | [], _ => none
  | ns :: more, l =>
    if ns.isPrefixOf l then
      match l.drop ns.length with
      | '.' :: rest =>
        let w := rest.takeWhile isWordChar
        if w.isEmpty then tryNamespaceMention more l
        else some (ns ++ '.' :: w, rest.drop w.length)
      | _ => tryNamespaceMention more l
    else tryNamespaceMention more l

/-- Try the standalone alternation at the current position: the first
alternative that is a prefix and is followed by a word boundary wins. -/
def tryStandaloneMention : List (List Char) → List Char →
    Option (List Char × List Char)
  | [], _ => none
  | n :: more, l =>
    if n.isPrefixOf l then
      match l.drop n.length with
      | [] => some (n, [])
      | c :: rest =>
        if isWordChar c then tryStandaloneMention more l
        else some (n, c :: rest)
    else tryStandaloneMention more l

/-- Global scan with the namespace regex.  `prevWord` is the word-character
status of the character before the current position (`false` at the start of
the string), which decides the leading `\b`.  `fuel` is an upper bound on the
number of remaining characters; the wrapper passes the string length, which
always suffices since every step consumes at least one character. -/
def scanNamespaceMentions : ℕ → List Char → Bool → List (List Char)
  | 0, _, _ => []
  | _ + 1, [], _ => []
  | fuel + 1, c :: rest, true => scanNamespaceMentions fuel rest (isWordChar c)
  | fuel + 1, c :: rest, false =>
    match tryNamespaceMention MENTION_NAMESPACES (c :: rest) with
    | some (m, after) => m :: scanNamespaceMentions fuel after true
    | none => scanNamespaceMentions fuel rest (isWordChar c)

/-- Global scan with the standalone regex; same conventions as
`scanNamespaceMentions`.  After a match the previous character is the last
character of the matched name, which is a word character. -/
def scanStandaloneMentions : ℕ → List Char → Bool → List (List Char)
  | 0, _, _ => []
  | _ + 1, [], _ => []
  | fuel + 1, c :: rest, true => scanStandaloneMentions fuel rest (isWordChar c)
  | fuel + 1, c :: rest, false =>
    match tryStandaloneMention MENTION_STANDALONE (c :: rest) with
    | some (m, after) => m :: scanStandaloneMentions fuel after true
    | none => scanStandaloneMentions fuel rest (isWordChar c)

/-- The `extractFunctionMentions` of `search.ts`: the matches of the namespace
regex over the raw query, followed by the matches of the standalone regex. -/
def extractFunctionMentions (query : String) : List String :=
  (scanNamespaceMentions query.data.length query.data false).map
      (fun m => (⟨m⟩ : String)) ++
    (scanStandaloneMentions query.data.length query.data false).map
      (fun m => (⟨m⟩ : String))

/-! ### The RAG search orchestrator (`searchRAG` of `search.ts`)

The four lazily loaded module-level JSON artifacts are passed as explicit
parameters (the process-wide cache made explicit).  The literal `type` tags of
the TypeScript interfaces are carried by the three distinct structure types;
`section` and `example` are renamed (Lean keywords). -/

/-- The result categories of `RagResult.type`. -/
inductive RagType
  | documentation
  | reference
  | example
deriving DecidableEq, Repr, BEq

/-- The `DocChunk` of `search.ts` (the `type: "documentation"` tag is implicit in
the structure type; `sectionName` is the `section` field). -/
structure DocChunk where
  id : String
  source : String
  sectionName : String
  title : String
  content : String
  keywords : List String
deriving DecidableEq, Repr

/-- One element of `FunctionRef.params`. -/
structure RefParam where
  name : String
  type : String
  description : String
deriving DecidableEq, Repr

/-- The `FunctionRef` of `search.ts` (`exampleText` is the `example` field). -/
structure FunctionRef where
  id : String
  namespace_ : String
  function : String
  signature : String
  description : String
  params : List RefParam
  returns : String
  exampleText : String
  keywords : List String
deriving DecidableEq, Repr

/-- The `ExampleScript` of `search.ts`. -/
structure ExampleScript where
  id : String
  category : String
  title : String
  version : String
  code : String
  functions_used : List String
  keywords : List String
deriving DecidableEq, Repr

/-- The `BM25Index` of `search.ts`; `documents` is the `{id, terms}` list, and
`idf` models the `Record<string, number>` together with the `|| 0` default
applied at every lookup. -/
structure BM25Index where
  documents : List (String × List String)
  idf : String → ℚ
  avgDl : ℚ
  totalDocs : ℕ

/-- The `RagResult` of `search.ts`. -/
structure RagResult where
  id : String
  type : RagType
  score : ℚ
  content : String
deriving DecidableEq, Repr

/-- The `SearchOptions` of `search.ts`: three optional per-category caps. -/
structure SearchOptions where
  maxDocs : Option ℕ
  maxRefs : Option ℕ
  maxExamples : Option ℕ
deriving DecidableEq, Repr

/-- The `new Map(entries).get key`: a JavaScript `Map` built from an entry list
keeps the last binding of a duplicated key. -/
def mapGet {α : Type} (entries : List (String × α)) (key : String) : Option α :=
  entries.foldl (fun acc e => if e.1 = key then some e.2 else acc) none

/-- Stable insertion of an element into a list sorted by descending score:
the element goes after every earlier element whose score is at least its
own. -/
def insertByScoreDesc (x : String × ℚ) : List (String × ℚ) → List (String × ℚ)
  | [] => [x]
  | y :: ys => if x.2 ≤ y.2 then y :: insertByScoreDesc x ys else x :: y :: ys

/-- The `scored.sort((a, b) => b.score - a.score)`: JavaScript's `Array.sort` is
stable, so with this comparator it is the stable sort by descending score,
modelled by a stable insertion sort. -/
def sortByScoreDesc : List (String × ℚ) → List (String × ℚ)
  | [] => []
  | x :: xs => insertByScoreDesc x (sortByScoreDesc xs)

/-- Render a documentation chunk (`### {title}\n{content}`). -/
def renderDocChunk (doc : DocChunk) : String :=
  "### " ++ doc.title ++ "\n" ++ doc.content

/-- Render a function reference: `**{function}** — {description}` plus the
optional `Returns:` line and the optional fenced example (empty strings are
falsy in the source's `if (ref.returns)` / `if (ref.example)` guards). -/
def renderFunctionRef (ref : FunctionRef) : String :=
  let base := "**" ++ ref.function ++ "** — " ++ ref.description
  let base := if ref.returns ≠ "" then base ++ "\nReturns: " ++ ref.returns else base
  if ref.exampleText ≠ "" then
    base ++ "\nExample:\n```pine\n" ++ ref.exampleText ++ "\n```"
  else base

/-- Render an example script (`// {title} ({category})\n{code}`). -/
def renderExampleScript (ex : ExampleScript) : String :=
  "// " ++ ex.title ++ " (" ++ ex.category ++ ")\n" ++ ex.code

/-- The result-collection loop of `searchRAG`: walk the sorted scored list
once, breaking when all three caps are reached; classify each id against the
three maps in documentation → reference → example order, emitting it only if
its category is below its cap (an id found in a full category's map falls
through to the next lookup, mirroring the `if (doc && docCount < maxDocs)`
chains of the source). -/
def collectResults (docsMap : List (String × DocChunk))
    (refsMap : List (String × FunctionRef))
    (examplesMap : List (String × ExampleScript))
    (maxDocs maxRefs maxExamples : ℕ) :
    List (String × ℚ) → ℕ → ℕ → ℕ → List RagResult
  | [], _, _, _ => []
  | (id, score) :: rest, docCount, refCount, exampleCount =>
    if maxDocs ≤ docCount ∧ maxRefs ≤ refCount ∧ maxExamples ≤ exampleCount then []
    else
      let tryExample :=
        match mapGet examplesMap id with
        | some ex =>
          if exampleCount < maxExamples then
            ⟨id, RagType.example, score, renderExampleScript ex⟩ ::
              collectResults docsMap refsMap examplesMap maxDocs maxRefs
                maxExamples rest docCount refCount (exampleCount + 1)
          else
            collectResults docsMap refsMap examplesMap maxDocs maxRefs
              maxExamples rest docCount refCount exampleCount
        | none =>
          collectResults docsMap refsMap examplesMap maxDocs maxRefs
            maxExamples rest docCount refCount exampleCount
      let tryRef :=
        match mapGet refsMap id with
        | some ref =>
          if refCount < maxRefs then
            ⟨id, RagType.reference, score, renderFunctionRef ref⟩ ::
              collectResults docsMap refsMap examplesMap maxDocs maxRefs
                maxExamples rest docCount (refCount + 1) exampleCount
          else tryExample
        | none => tryExample
      match mapGet docsMap id with
      | some doc =>
        if docCount < maxDocs then
          ⟨id, RagType.documentation, score, renderDocChunk doc⟩ ::
            collectResults docsMap refsMap examplesMap maxDocs maxRefs
              maxExamples rest (docCount + 1) refCount exampleCount
        else tryRef
      | none => tryRef

/-- The score of one indexed document in `searchRAG`: the BM25 base score
(with the default `k1`/`b`), multiplied by `1.5` once for every term of every
tokenized function mention that occurs in the document's term list (the boost
stacks). -/
def boostedScore (queryTerms : List String) (functionMentions : List String)
    (idx : BM25Index) (terms : List String) : ℚ :=
  let base := scoreBM25 queryTerms terms idx.idf idx.avgDl (3/2) (3/4)
  functionMentions.foldl
    (fun s fn =>
      (tokenize fn).foldl
        (fun s2 t => if terms.contains t then s2 * (3/2) else s2) s)
    base

/-- The `searchRAG` of `search.ts`, with the four loaded artifacts as explicit
parameters.  Returns `[]` immediately when the index reports `totalDocs == 0`
(the "RAG not built yet" degraded mode); otherwise scores every indexed
document, keeps the positively scoring ones, sorts by descending score and
collects capped per-category results. -/
def searchRAG (query : String) (options : SearchOptions)
    (docsData : List DocChunk) (refsData : List FunctionRef)
    (examplesData : List ExampleScript) (indexData : BM25Index) :
    List RagResult :=
  if indexData.totalDocs = 0 then []
  else
    let maxDocs := options.maxDocs.getD 3
    let maxRefs := options.maxRefs.getD 5
    let maxExamples := options.maxExamples.getD 2
    let queryTerms := tokenize query
    let functionMentions := extractFunctionMentions query
    let scored :=
      (indexData.documents.map fun d =>
        (d.1, boostedScore queryTerms functionMentions indexData d.2)).filter
        fun p => 0 < p.2
    let sorted := sortByScoreDesc scored
    let docsMap := docsData.map fun d => (d.id, d)
    let refsMap := refsData.map fun r => (r.id, r)
    let examplesMap := examplesData.map fun e => (e.id, e)
    collectResults docsMap refsMap examplesMap maxDocs maxRefs maxExamples
      sorted 0 0 0

/-! ### The static validator (`src/lib/validator/`)

`RegExp.test` calls are modelled as "some position of the line starts a
match"; greedy quantifiers are resolved exactly (every quantifier in the
source patterns sits at a character-class border where backtracking cannot
help, so the greedy take is the only candidate). -/

/-- The `ValidationResult.status`. -/
inductive Status
  | pass
  | warn
  | error
deriving DecidableEq, Repr

/-- The `version` argument of the validator entry points. -/
inductive Version
  | v5
  | v6
deriving DecidableEq, Repr

/-- The `ValidationResult` of `src/lib/validator/index.ts`. -/
structure ValidationResult where
  rule : String
  status : Status
  message : String
  line : Option ℕ
  suggestion : Option String
deriving DecidableEq, Repr

/-- The `line.trim().startsWith("//")`: the comment-line skip shared by the
per-line rule loops. -/
def isCommentLine (l : List Char) : Bool :=
  ("//".data).isPrefixOf (trimChars l)

/-- The `\b` assertion before position `i`: start of string or a non-word
character at `i - 1` (every pattern using it continues with a word
character). -/
def boundaryBefore (l : List Char) (i : ℕ) : Bool :=
  if i = 0 then true
  else
    match l[i-1]? with
    | some c => !isWordChar c
    | none => true

/-- The negative lookbehind `(?<!\w\.)` at position `i`: blocked exactly when
the two preceding characters are a word character followed by a dot. -/
def dotLookbehindBlocked (l : List Char) (i : ℕ) : Bool :=
  2 ≤ i &&
    (match l[i-2]?, l[i-1]? with
     | some a, some b => isWordChar a && b == '.'
     | _, _ => false)

/-- The `\s*` followed by one literal character. -/
def spacesThenChar (target : Char) (l : List Char) : Bool :=
  match l.dropWhile isSpaceChar with
  | c :: _ => c == target
  | [] => false

/-- The `\b` assertion after a match ending where `l` starts. -/
def wordBoundaryAfter (l : List Char) : Bool :=
  match l with
  | [] => true
  | c :: _ => !isWordChar c

/-- The `.test` of a pattern `\bNAME\s*\(`. -/
def wordCallTest (name : List Char) (l : List Char) : Bool :=
  (List.range l.length).any fun i =>
    boundaryBefore l i && name.isPrefixOf (l.drop i) &&
      spacesThenChar '(' (l.drop (i + name.length))

/-- The `.test` of a pattern `\bNAME\s*=`. -/
def wordEqTest (name : List Char) (l : List Char) : Bool :=
  (List.range l.length).any fun i =>
    boundaryBefore l i && name.isPrefixOf (l.drop i) &&
      spacesThenChar '=' (l.drop (i + name.length))

/-- The `.test` of a pattern `(?<!\w\.)NAME\s*\(` (no leading `\b` in the
source patterns using the lookbehind). -/
def bareCallTest (name : List Char) (l : List Char) : Bool :=
  (List.range l.length).any fun i =>
    !dotLookbehindBlocked l i && name.isPrefixOf (l.drop i) &&
      spacesThenChar '(' (l.drop (i + name.length))

/-- The `.test` of a literal-substring pattern. -/
def substrTest (pat : List Char) (l : List Char) : Bool :=
  (List.range l.length).any fun i => pat.isPrefixOf (l.drop i)

/-- The `.test` of `\binput\.(?:integer|resolution|symbol)\s*\(`. -/
def inputDeprecatedTest (l : List Char) : Bool :=
  (List.range l.length).any fun i =>
    boundaryBefore l i && ("input.".data).isPrefixOf (l.drop i) &&
      (["integer", "resolution", "symbol"].map String.data).any fun n =>
        n.isPrefixOf (l.drop (i + 6)) &&
          spacesThenChar '(' (l.drop (i + 6 + n.length))

/-- The `.test` of `input\.(?:int|float)\s*\(` (no leading `\b`). -/
def inputIntFloatTest (l : List Char) : Bool :=
  (List.range l.length).any fun i =>
    ("input.".data).isPrefixOf (l.drop i) &&
      (["int", "float"].map String.data).any fun n =>
        n.isPrefixOf (l.drop (i + 6)) &&
          spacesThenChar '(' (l.drop (i + 6 + n.length))

/-- The tail `\s+\w+\s*=\s*na\b` of the na-assignment patterns, matched
against the remainder after the type name. -/
def matchSpaceWordEqNa (r : List Char) : Bool :=
  let sp := r.takeWhile isSpaceChar
  if sp.isEmpty then false
  else
    let r1 := r.drop sp.length
    let w := r1.takeWhile isWordChar
    if w.isEmpty then false
    else
      match (r1.drop w.length).dropWhile isSpaceChar with
      | '=' :: r3 =>
        let r4 := r3.dropWhile isSpaceChar
        ("na".data).isPrefixOf r4 && wordBoundaryAfter (r4.drop 2)
      | _ => false

/-- The `.test` of `\bTY\s+\w+\s*=\s*na\b` (`TY` = `bool` or `int`). -/
def typeNaTest (tyName : List Char) (l : List Char) : Bool :=
  (List.range l.length).any fun i =>
    boundaryBefore l i && tyName.isPrefixOf (l.drop i) &&
      matchSpaceWordEqNa (l.drop (i + tyName.length))

/-- The `.test` of `TY\s*\(\s*na\s*\)` (no `\b`). -/
def typeCastNaTest (tyName : List Char) (l : List Char) : Bool :=
  (List.range l.length).any fun i =>
    tyName.isPrefixOf (l.drop i) &&
      (match (l.drop (i + tyName.length)).dropWhile isSpaceChar with
       | '(' :: r2 =>
         let r3 := r2.dropWhile isSpaceChar
         ("na".data).isPrefixOf r3 &&
           (match (r3.drop 2).dropWhile isSpaceChar with
            | ')' :: _ => true
            | _ => false)
       | _ => false)

/-- The `line.match(/(\w+)\s*=\s*CALLEE\s*\(/)`: capture group 1 of the leftmost
match, if any. -/
def captureAssignCall (callee : List Char) (l : List Char) : Option (List Char) :=
  (List.range l.length).findSome? fun i =>
    let w := (l.drop i).takeWhile isWordChar
    if w.isEmpty then none
    else
      match (l.drop (i + w.length)).dropWhile isSpaceChar with
      | '=' :: r2 =>
        let r3 := r2.dropWhile isSpaceChar
        if callee.isPrefixOf r3 && spacesThenChar '(' (r3.drop callee.length) then
          some w
        else none
      | _ => none

/-- The `line.match(/fill\s*\(\s*(\w+)\s*,\s*(\w+)/)`: the two capture groups of
the leftmost match, if any. -/
def fillArgsCapture (l : List Char) : Option (List Char × List Char) :=
  (List.range l.length).findSome? fun i =>
    if ("fill".data).isPrefixOf (l.drop i) then
      match (l.drop (i + 4)).dropWhile isSpaceChar with
      | '(' :: r2 =>
        let r3 := r2.dropWhile isSpaceChar
        let a := r3.takeWhile isWordChar
        if a.isEmpty then none
        else
          match (r3.drop a.length).dropWhile isSpaceChar with
          | ',' :: r5 =>
            let r6 := r5.dropWhile isSpaceChar
            let b := r6.takeWhile isWordChar
            if b.isEmpty then none else some (a, b)
          | _ => none
      | _ => none
    else none

/-- The `line.replace(/\/\/.*$/, "")`: strip everything from the first `//`. -/
def stripLineComment : List Char → List Char
  | [] => []
  | '/' :: '/' :: _ => []
  | c :: rest => c :: stripLineComment rest

/-- The number of matches of `/(?<!\\)"/g`: double quotes not preceded by a
backslash. -/
def countUnescapedQuotes (l : List Char) : ℕ :=
  (List.range l.length).countP fun i =>
    (l[i]? == some '"') && (if i = 0 then true else !(l[i-1]? == some '\\'))

/-- The `checkStructure` of `rules/structure.ts`. -/
def checkStructure (code : List Char) : List ValidationResult :=
  let lines := splitLines code
  match lines.findIdx? (fun l => decide (0 < (trimChars l).length)) with
  | none => [⟨"empty-script", Status.error, "Script is empty", none, none⟩]
  | some firstNonEmpty =>
    let firstLine := trimChars (lines.getD firstNonEmpty [])
    let versionResults :=
      if ("//@version=".data).isPrefixOf firstLine then []
      else [⟨"missing-version", Status.error,
             "//@version= annotation must be the first non-empty line",
             some (firstNonEmpty + 1), some "Add //@version=6 as the first line"⟩]
    let hasIndicator := wordCallTest "indicator".data code
    let hasStrategy := wordCallTest "strategy".data code
    let hasLibrary := wordCallTest "library".data code
    let declResults :=
      if !hasIndicator && !hasStrategy && !hasLibrary then
        [⟨"missing-declaration", Status.error,
          "Script must have an indicator(), strategy(), or library() declaration",
          none, some "Add indicator(\"My Script\") after the version annotation"⟩]
      else []
    let dualResults :=
      if hasIndicator && hasStrategy then
        [⟨"dual-declaration", Status.error,
          "Script cannot be both indicator() and strategy()",
          none, some "Remove one of the declarations"⟩]
      else []
    let openParens := code.count '('
    let closeParens := code.count ')'
    let parenResults :=
      if openParens ≠ closeParens then
        [⟨"unbalanced-parens", Status.error,
          "Unbalanced parentheses: " ++ toString openParens ++ " opening, " ++
            toString closeParens ++ " closing", none, none⟩]
      else []
    let openBrackets := code.count '['
    let closeBrackets := code.count ']'
    let bracketResults :=
      if openBrackets ≠ closeBrackets then
        [⟨"unbalanced-brackets", Status.error,
          "Unbalanced brackets: " ++ toString openBrackets ++ " opening, " ++
            toString closeBrackets ++ " closing", none, none⟩]
      else []
    let stringResults := lines.enum.flatMap fun p =>
      if isCommentLine p.2 then []
      else
        let withoutComments := stripLineComment p.2
        if countUnescapedQuotes withoutComments % 2 ≠ 0 then
          [⟨"unbalanced-string", Status.error, "Unbalanced string quotes",
            some (p.1 + 1), none⟩]
        else []
    let results := versionResults ++ declResults ++ dualResults ++
      parenResults ++ bracketResults ++ stringResults
    if results.isEmpty then
      [⟨"structure", Status.pass, "Script structure is valid", none, none⟩]
    else results

/-- One entry of the `DEPRECATED_V6` pattern table; `pattern` is the
`.test` of the source's regex. -/
structure DeprecatedPattern where
  pattern : List Char → Bool
  rule : String
  message : String
  suggestion : String

/-- The `DEPRECATED_V6` table of `rules/deprecated.ts`, in source order. -/
def DEPRECATED_V6 : List DeprecatedPattern :=
  [⟨bareCallTest "security".data, "deprecated-security",
    "security() is deprecated in v6", "Use request.security() instead"⟩,
   ⟨wordCallTest "study".data, "deprecated-study",
    "study() is deprecated in v6", "Use indicator() instead"⟩,
   ⟨wordEqTest "transp".data, "deprecated-transp",
    "transp parameter is deprecated in v6",
    "Use color.new(color, transparency) instead"⟩,
   ⟨wordCallTest "iff".data, "deprecated-iff",
    "iff() is deprecated in v6",
    "Use ternary operator: condition ? valueIfTrue : valueIfFalse"⟩,
   ⟨substrTest "plot.style_dashed".data, "nonexistent-style-dashed",
    "plot.style_dashed does not exist in PineScript",
    "Use plot.style_line with linewidth parameter for visual distinction"⟩,
   ⟨inputDeprecatedTest, "deprecated-input-type",
    "Deprecated input function",
    "Use input.int(), input.timeframe(), input.symbol() instead"⟩,
   ⟨bareCallTest "tostring".data, "deprecated-tostring",
    "tostring() is deprecated in v6", "Use str.tostring() instead"⟩,
   ⟨bareCallTest "tonumber".data, "deprecated-tonumber",
    "tonumber() is deprecated in v6", "Use str.tonumber() instead"⟩]

/-- The `checkDeprecated` of `rules/deprecated.ts`: empty unless `version` is
`v6`; per non-comment line, every matching pattern emits an error finding. -/
def checkDeprecated (code : List Char) (version : Version) :
    List ValidationResult :=
  if version ≠ Version.v6 then []
  else
    (splitLines code).enum.flatMap fun p =>
      if isCommentLine p.2 then []
      else
        DEPRECATED_V6.filterMap fun dp =>
          if dp.pattern p.2 then
            some ⟨dp.rule, Status.error, dp.message, some (p.1 + 1),
                  some dp.suggestion⟩
          else none

/-- The `checkV6Specific` of `rules/v6-specific.ts`. -/
def checkV6Specific (code : List Char) (version : Version) :
    List ValidationResult :=
  if version ≠ Version.v6 then []
  else
    let lines := splitLines code
    let naResults := lines.enum.flatMap fun p =>
      if isCommentLine p.2 then []
      else
        (if typeNaTest "bool".data p.2 && !typeCastNaTest "bool".data p.2 then
           [⟨"bool-na-cast", Status.error,
             "Cannot assign na to bool without explicit cast in v6",
             some (p.1 + 1), some "Use bool(na) instead of plain na"⟩]
         else []) ++
        (if typeNaTest "int".data p.2 && !typeCastNaTest "int".data p.2 then
           [⟨"int-na-cast", Status.warn,
             "Assigning na to int may need explicit cast in v6",
             some (p.1 + 1), some "Use int(na) for clarity"⟩]
         else [])
    let hlineVars := lines.filterMap fun line =>
      if isCommentLine line then none else captureAssignCall "hline".data line
    let plotVars := lines.filterMap fun line =>
      if isCommentLine line then none else captureAssignCall "plot".data line
    let fillResults := lines.enum.flatMap fun p =>
      if isCommentLine p.2 then []
      else
        match fillArgsCapture p.2 with
        | some (arg1, arg2) =>
          let arg1IsHline := hlineVars.contains arg1
          let arg1IsPlot := plotVars.contains arg1
          let arg2IsHline := hlineVars.contains arg2
          let arg2IsPlot := plotVars.contains arg2
          if (arg1IsHline && arg2IsPlot) || (arg1IsPlot && arg2IsHline) then
            [⟨"fill-mixed-types", Status.error,
              "fill() cannot mix hline and plot references", some (p.1 + 1),
              some "Both arguments to fill() must be the same type (both plot or both hline)"⟩]
          else []
        | none => []
    let inputDefResults := lines.enum.flatMap fun p =>
      if isCommentLine p.2 then []
      else
        if inputIntFloatTest p.2 && wordEqTest "def".data p.2 &&
            !wordEqTest "defval".data p.2 then
          [⟨"input-def-param", Status.error,
            "input.int()/input.float() uses defval, not def", some (p.1 + 1),
            some "Change def= to defval="⟩]
        else []
    naResults ++ fillResults ++ inputDefResults

/-- The alternation of the plot-family counting regex of `rules/limits.ts`
(`checkLimits`), in source order. -/
def PLOT_CALL_NAMES : List (List Char) :=
  ["plot", "plotshape", "plotchar", "plotarrow", "plotcandle", "plotbar",
   "hline", "fill", "bgcolor", "barcolor"].map String.data

/-- Try `\b(?:plot|…|barcolor)\s*\(` at the current position (the `\b` is
handled by the caller); returns the length of the match. -/
def tryPlotCall : List (List Char) → List Char → Option ℕ
  | [], _ => none
  | n :: more, l =>
    if n.isPrefixOf l then
      let sp := (l.drop n.length).takeWhile isSpaceChar
      match l.drop (n.length + sp.length) with
      | '(' :: _ => some (n.length + sp.length + 1)
      | _ => tryPlotCall more l
    else tryPlotCall more l

/-- The match count of the global plot-family regex; fuelled scan as for the
mention extraction (a match always ends in `(`, a non-word character, so the
scan resumes with `prevWord = false`). -/
def countPlotCalls : ℕ → List Char → Bool → ℕ
  | 0, _, _ => 0
  | _ + 1, [], _ => 0
  | fuel + 1, c :: rest, prevWord =>
    if prevWord then countPlotCalls fuel rest (isWordChar c)
    else
      match tryPlotCall PLOT_CALL_NAMES (c :: rest) with
      | some len => 1 + countPlotCalls fuel ((c :: rest).drop len) false
      | none => countPlotCalls fuel rest (isWordChar c)

/-- Try `\brequest\.\w+\s*\(` at the current position; returns the length of
the match. -/
def tryRequestCall (l : List Char) : Option ℕ :=
  if ("request.".data).isPrefixOf l then
    let w := (l.drop 8).takeWhile isWordChar
    if w.isEmpty then none
    else
      let sp := (l.drop (8 + w.length)).takeWhile isSpaceChar
      match l.drop (8 + w.length + sp.length) with
      | '(' :: _ => some (8 + w.length + sp.length + 1)
      | _ => none
  else none

/-- The match count of the global `request.*`-call regex. -/
def countRequestCalls : ℕ → List Char → Bool → ℕ
  | 0, _, _ => 0
  | _ + 1, [], _ => 0
  | fuel + 1, c :: rest, prevWord =>
    if prevWord then countRequestCalls fuel rest (isWordChar c)
    else
      match tryRequestCall (c :: rest) with
      | some len => 1 + countRequestCalls fuel ((c :: rest).drop len) false
      | none => countRequestCalls fuel rest (isWordChar c)

/-- The `checkLimits` of `rules/limits.ts`; `Math.round(code.length / 1000)` is
half-up rounding on a nonnegative value. -/
def checkLimits (code : List Char) : List ValidationResult :=
  let plotCalls := countPlotCalls code.length code false
  let plotResults :=
    if plotCalls > 64 then
      [⟨"plot-limit-exceeded", Status.error,
        toString plotCalls ++ " plot calls exceed TradingView limit of 64",
        none, some "Reduce the number of plot/hline/fill/bgcolor calls"⟩]
    else if plotCalls > 50 then
      [⟨"plot-limit-warning", Status.warn,
        toString plotCalls ++ " plot calls approaching TradingView limit of 64",
        none, some "Consider reducing plot calls to stay safely under the limit"⟩]
    else []
  let requestCalls := countRequestCalls code.length code false
  let requestResults :=
    if requestCalls > 40 then
      [⟨"request-limit-exceeded", Status.error,
        toString requestCalls ++ " request calls exceed TradingView limit of 40",
        none, some "Reduce the number of request.security() and other request.* calls"⟩]
    else if requestCalls > 30 then
      [⟨"request-limit-warning", Status.warn,
        toString requestCalls ++ " request calls approaching TradingView limit of 40",
        none, some "Consider reducing request.* calls to stay safely under the limit"⟩]
    else []
  let sizeResults :=
    if code.length > 50000 then
      [⟨"script-size-warning", Status.warn,
        toString ((code.length + 500) / 1000) ++
          "K characters — may approach TradingView compilation limits",
        none, some "Consider splitting into a library + indicator pattern"⟩]
    else []
  plotResults ++ requestResults ++ sizeResults

/-- The `validatePineScript` of `src/lib/validator/index.ts`: the public entry
point; `[]` for blank input (`if (!code.trim()) return []`), otherwise the
concatenation of the four rule modules' findings in fixed order. -/
def validatePineScript (code : String) (version : Version) :
    List ValidationResult :=
  if trimChars code.data = [] then []
  else
    checkStructure code.data ++ checkDeprecated code.data version ++
      checkV6Specific code.data version ++ checkLimits code.data

/-- A small concrete index used by witnesses: two known documents and one
scored id (`"ghost"`) absent from every collection. -/
def idx0 : BM25Index :=
  ⟨[("d1", ["aa", "bb"]), ("r1", ["aa"]), ("ghost", ["aa"])],
   (fun s => if s = "aa" then 1 else 0), 2, 3⟩

/-- A one-chunk documentation collection for witnesses. -/
def docs0 : List DocChunk := [⟨"d1", "s", "sec", "T1", "C1", []⟩]

/-- A one-entry reference collection for witnesses. -/
def refs0 : List FunctionRef :=
  [⟨"r1", "ta", "ta.x", "ta.x(...)", "desc", [], "float", "", []⟩]

/-- A script made of `n` lines of `plot(close)`: exactly `n` plot-family
calls. -/
def plotScript (n : ℕ) : List Char :=
  (List.replicate n "plot(close)\n".data).flatten

/-- A concrete script exercising namespaced and bare `security`/`tostring`
calls, used by witnesses. -/
def secCode : List Char :=
  "request.security(x)\nsecurity(y)\nstr.tostring(z)\ntostring(w)".data

/-!
## Theorems
-/

lemma scoreBM25_eq (queryTerms docTerms : List String) (idf : String → ℚ)
    (avgDl k1 b : ℚ) :
    scoreBM25 queryTerms docTerms idf avgDl k1 b =
      if docTerms.length = 0 then 0
      else (queryTerms.map (bm25Contrib idf k1 b avgDl docTerms)).sum := rfl

/-- C3 (counterexample): duplicating the query term `"aa"` doubles the score
(`2` against `1`) on the document `["aa", "bb"]`, so repeated query terms do
change the value of `scoreBM25`. -/
theorem scoreBM25_dup_query_term_counterexample :
    scoreBM25 ["aa", "aa"] ["aa", "bb"]
        (fun s => if s = "aa" then 1 else 0) 2 (3/2) (3/4) ≠
      scoreBM25 ["aa"] ["aa", "bb"]
        (fun s => if s = "aa" then 1 else 0) 2 (3/2) (3/4) := by
  simp [scoreBM25, List.count_cons]
  norm_num

/-- C3 (amended): `scoreBM25` sums one contribution per query-term
occurrence, so appending a repeated term adds that term's contribution
again — repeated query terms are double-counted (the document's term
frequency only fixes the size of each occurrence's contribution). -/
theorem scoreBM25_query_append_single (q : List String) (t : String)
    (d : List String) (idf : String → ℚ) (avgDl k1 b : ℚ) :
    scoreBM25 (q ++ [t]) d idf avgDl k1 b =
      scoreBM25 q d idf avgDl k1 b + scoreBM25 [t] d idf avgDl k1 b := by
  by_cases h : d.length = 0 <;>
    simp [scoreBM25_eq, h, List.map_append, List.sum_append]

lemma bm25_denom_pos (k1 b avgDl c : ℚ) (dl : ℕ)
    (hk1 : 0 < k1) (hb : 0 < b) (hb1 : b ≤ 1) (havg : 0 < avgDl)
    (hdl : 0 < dl) (hc : 0 < c) :
    0 < c + k1 * (1 - b + b * ((dl : ℚ) / avgDl)) := by
  have h1 : (0 : ℚ) < (dl : ℚ) / avgDl :=
    div_pos (by exact_mod_cast hdl) havg
  nlinarith [mul_pos hb h1]

lemma bm25_denom_lt (k1 b avgDl c : ℚ) (dl1 dl2 : ℕ)
    (hk1 : 0 < k1) (hb : 0 < b) (havg : 0 < avgDl) (hlen : dl1 < dl2) :
    c + k1 * (1 - b + b * ((dl1 : ℚ) / avgDl)) <
      c + k1 * (1 - b + b * ((dl2 : ℚ) / avgDl)) := by
  have hx : ((dl1 : ℚ)) < (dl2 : ℚ) := by exact_mod_cast hlen
  gcongr

lemma bm25Contrib_le_of_shorter (idf : String → ℚ) (k1 b avgDl : ℚ)
    (d1 d2 : List String) (s : String)
    (hk1 : 0 < k1) (hb : 0 < b) (hb1 : b ≤ 1) (havg : 0 < avgDl)
    (hd1 : 0 < d1.length) (hlen : d1.length < d2.length)
    (hc : d1.count s = d2.count s) (hi : 0 ≤ idf s) :
    bm25Contrib idf k1 b avgDl d2 s ≤ bm25Contrib idf k1 b avgDl d1 s := by
  unfold bm25Contrib
  rw [← hc]
  by_cases h0 : d1.count s = 0
  · simp [h0]
  · rw [if_neg h0, if_neg h0]
    simp only
    have hcpos : (0 : ℚ) < (d1.count s : ℚ) := by
      exact_mod_cast Nat.pos_of_ne_zero h0
    have ha : 0 ≤ idf s * ((d1.count s : ℚ) * (k1 + 1)) :=
      mul_nonneg hi (mul_nonneg hcpos.le (by linarith))
    exact div_le_div_of_nonneg_left ha
      (bm25_denom_pos k1 b avgDl _ _ hk1 hb hb1 havg hd1 hcpos)
      (bm25_denom_lt k1 b avgDl _ _ _ hk1 hb havg hlen).le

lemma bm25Contrib_lt_of_shorter (idf : String → ℚ) (k1 b avgDl : ℚ)
    (d1 d2 : List String) (s : String)
    (hk1 : 0 < k1) (hb : 0 < b) (hb1 : b ≤ 1) (havg : 0 < avgDl)
    (hd1 : 0 < d1.length) (hlen : d1.length < d2.length)
    (hc0 : d1.count s ≠ 0) (hc : d1.count s = d2.count s) (hi : 0 < idf s) :
    bm25Contrib idf k1 b avgDl d2 s < bm25Contrib idf k1 b avgDl d1 s := by
  unfold bm25Contrib
  rw [← hc]
  rw [if_neg hc0, if_neg hc0]
  simp only
  have hcpos : (0 : ℚ) < (d1.count s : ℚ) := by
    exact_mod_cast Nat.pos_of_ne_zero hc0
  have ha : 0 < idf s * ((d1.count s : ℚ) * (k1 + 1)) :=
    mul_pos hi (mul_pos hcpos (by linarith))
  exact div_lt_div_of_pos_left ha
    (bm25_denom_pos k1 b avgDl _ _ hk1 hb hb1 havg hd1 hcpos)
    (bm25_denom_lt k1 b avgDl _ _ _ hk1 hb havg hlen)

/-- C6: for a query term matched exactly once in each of two documents whose
query-term frequencies otherwise agree, with `0 < b ≤ 1`, `0 < k1`,
`0 < avgDl`, nonnegative IDF weights on the query terms and a positive IDF
for the matched term, `scoreBM25` scores the strictly shorter document
strictly higher. -/
theorem scoreBM25_shorter_doc_higher (q d1 d2 : List String) (t : String)
    (idf : String → ℚ) (avgDl k1 b : ℚ)
    (hk1 : 0 < k1) (hb : 0 < b) (hb1 : b ≤ 1) (havg : 0 < avgDl)
    (ht : t ∈ q) (htf : d1.count t = 1)
    (hcounts : ∀ s ∈ q, d1.count s = d2.count s)
    (hidf : ∀ s ∈ q, 0 ≤ idf s) (hidft : 0 < idf t)
    (hlen : d1.length < d2.length) :
    scoreBM25 q d2 idf avgDl k1 b < scoreBM25 q d1 idf avgDl k1 b := by
  have htd1 : t ∈ d1 := by
    rw [← List.count_pos_iff]
    omega
  have hd1len : 0 < d1.length := List.length_pos_of_mem htd1
  have hd2len : 0 < d2.length := lt_trans hd1len hlen
  rw [scoreBM25_eq, scoreBM25_eq, if_neg (by omega), if_neg (by omega)]
  apply List.sum_lt_sum
  · intro s hs
    exact bm25Contrib_le_of_shorter idf k1 b avgDl d1 d2 s hk1 hb hb1 havg
      hd1len hlen (hcounts s hs) (hidf s hs)
  · exact ⟨t, ht, bm25Contrib_lt_of_shorter idf k1 b avgDl d1 d2 t hk1 hb hb1
      havg hd1len hlen (by omega) (hcounts t ht) hidft⟩

/-- Witness for C6 at a concrete input: the one-term document beats the
two-term document on the query `["aa"]`. -/
theorem scoreBM25_shorter_doc_higher_witness :
    scoreBM25 ["aa"] ["aa", "bb"] (fun s => if s = "aa" then 1 else 0) 1
        (3/2) (3/4) <
      scoreBM25 ["aa"] ["aa"] (fun s => if s = "aa" then 1 else 0) 1
        (3/2) (3/4) :=
  scoreBM25_shorter_doc_higher ["aa"] ["aa"] ["aa", "bb"] "aa"
    (fun s => if s = "aa" then 1 else 0) 1 (3/2) (3/4)
    (by norm_num) (by norm_num) (by norm_num) (by norm_num)
    (by decide) (by decide) (by decide)
    (by intro s hs; simp at hs; subst hs; norm_num)
    (by norm_num) (by decide)

/-- C2: with a loaded index reporting `totalDocs = 0`, `searchRAG` returns
the empty list for every query and options (the degraded "RAG not built yet"
mode), without any error. -/
theorem searchRAG_empty_index (query : String) (options : SearchOptions)
    (docsData : List DocChunk) (refsData : List FunctionRef)
    (examplesData : List ExampleScript) (indexData : BM25Index)
    (h : indexData.totalDocs = 0) :
    searchRAG query options docsData refsData examplesData indexData = [] := by
  simp [searchRAG, h]

/-- Witness for C2 at a concrete empty index. -/
theorem searchRAG_empty_index_witness :
    searchRAG "ta.sma" ⟨none, none, none⟩ [] [] []
      ⟨[], (fun _ => 0), 0, 0⟩ = [] :=
  searchRAG_empty_index "ta.sma" ⟨none, none, none⟩ [] [] []
    ⟨[], (fun _ => 0), 0, 0⟩ rfl

lemma collectResults_counts_le (docsMap : List (String × DocChunk))
    (refsMap : List (String × FunctionRef))
    (examplesMap : List (String × ExampleScript)) (mD mR mE : ℕ) :
    ∀ (l : List (String × ℚ)) (dc rc ec : ℕ),
      (collectResults docsMap refsMap examplesMap mD mR mE l dc rc ec).countP
          (fun r => decide (r.type = RagType.documentation)) ≤ mD - dc ∧
      (collectResults docsMap refsMap examplesMap mD mR mE l dc rc ec).countP
          (fun r => decide (r.type = RagType.reference)) ≤ mR - rc ∧
      (collectResults docsMap refsMap examplesMap mD mR mE l dc rc ec).countP
          (fun r => decide (r.type = RagType.example)) ≤ mE - ec := by
  intro l
  induction l with
  | nil => intro dc rc ec; simp [collectResults]
  | cons hd tl ih =>
    intro dc rc ec
    obtain ⟨id, score⟩ := hd
    simp only [collectResults]
    split
    · simp
    · split
      · -- id found in the documentation map
        split
        · obtain ⟨hA, hB, hC⟩ := ih (dc + 1) rc ec
          refine ⟨?_, ?_, ?_⟩ <;> simp [List.countP_cons] <;> omega
        · split
          · split
            · obtain ⟨hA, hB, hC⟩ := ih dc (rc + 1) ec
              refine ⟨?_, ?_, ?_⟩ <;> simp [List.countP_cons] <;> omega
            · split
              · split
                · obtain ⟨hA, hB, hC⟩ := ih dc rc (ec + 1)
                  refine ⟨?_, ?_, ?_⟩ <;> simp [List.countP_cons] <;> omega
                · exact ih dc rc ec
              · exact ih dc rc ec
          · split
            · split
              · obtain ⟨hA, hB, hC⟩ := ih dc rc (ec + 1)
                refine ⟨?_, ?_, ?_⟩ <;> simp [List.countP_cons] <;> omega
              · exact ih dc rc ec
            · exact ih dc rc ec
      · -- id not in the documentation map
        split
        · split
          · obtain ⟨hA, hB, hC⟩ := ih dc (rc + 1) ec
            refine ⟨?_, ?_, ?_⟩ <;> simp [List.countP_cons] <;> omega
          · split
            · split
              · obtain ⟨hA, hB, hC⟩ := ih dc rc (ec + 1)
                refine ⟨?_, ?_, ?_⟩ <;> simp [List.countP_cons] <;> omega
              · exact ih dc rc ec
            · exact ih dc rc ec
        · split
          · split
            · obtain ⟨hA, hB, hC⟩ := ih dc rc (ec + 1)
              refine ⟨?_, ?_, ?_⟩ <;> simp [List.countP_cons] <;> omega
            · exact ih dc rc ec
          · exact ih dc rc ec

/-- C1: for every query and options, `searchRAG` emits at most
`maxDocs` (default 3) documentation results, at most `maxRefs` (default 5)
reference results and at most `maxExamples` (default 2) example results,
whatever the loaded collections and index contain. -/
theorem searchRAG_category_caps (query : String) (options : SearchOptions)
    (docsData : List DocChunk) (refsData : List FunctionRef)
    (examplesData : List ExampleScript) (indexData : BM25Index) :
    (searchRAG query options docsData refsData examplesData indexData).countP
        (fun r => decide (r.type = RagType.documentation)) ≤
      options.maxDocs.getD 3 ∧
    (searchRAG query options docsData refsData examplesData indexData).countP
        (fun r => decide (r.type = RagType.reference)) ≤
      options.maxRefs.getD 5 ∧
    (searchRAG query options docsData refsData examplesData indexData).countP
        (fun r => decide (r.type = RagType.example)) ≤
      options.maxExamples.getD 2 := by
  by_cases h : indexData.totalDocs = 0
  · simp [searchRAG, h]
  · have hs : searchRAG query options docsData refsData examplesData indexData =
      collectResults (docsData.map fun d => (d.id, d))
        (refsData.map fun r => (r.id, r)) (examplesData.map fun e => (e.id, e))
        (options.maxDocs.getD 3) (options.maxRefs.getD 5)
        (options.maxExamples.getD 2)
        (sortByScoreDesc
          ((indexData.documents.map fun d =>
            (d.1, boostedScore (tokenize query) (extractFunctionMentions query)
              indexData d.2)).filter fun p => 0 < p.2)) 0 0 0 := by
      simp [searchRAG, h]
    rw [hs]
    obtain ⟨hA, hB, hC⟩ := collectResults_counts_le
      (docsData.map fun d => (d.id, d)) (refsData.map fun r => (r.id, r))
      (examplesData.map fun e => (e.id, e)) (options.maxDocs.getD 3)
      (options.maxRefs.getD 5) (options.maxExamples.getD 2)
      (sortByScoreDesc
        ((indexData.documents.map fun d =>
          (d.1, boostedScore (tokenize query) (extractFunctionMentions query)
            indexData d.2)).filter fun p => 0 < p.2)) 0 0 0
    exact ⟨by omega, by omega, by omega⟩

lemma foldl_lookup_no_key {α : Type} (key : String) :
    ∀ (entries : List (String × α)) (acc : Option α),
      (∀ e ∈ entries, e.1 ≠ key) →
      entries.foldl (fun acc e => if e.1 = key then some e.2 else acc) acc = acc := by
  intro entries
  induction entries with
  | nil => intro acc _; rfl
  | cons hd tl ih =>
    intro acc h
    simp only [List.foldl_cons]
    rw [if_neg (h hd (by simp))]
    exact ih acc fun e he => h e (by simp [he])

lemma mapGet_eq_none {α : Type} (entries : List (String × α)) (key : String)
    (h : ∀ e ∈ entries, e.1 ≠ key) : mapGet entries key = none :=
  foldl_lookup_no_key key entries none h

lemma collectResults_mem_isSome (docsMap : List (String × DocChunk))
    (refsMap : List (String × FunctionRef))
    (examplesMap : List (String × ExampleScript)) (mD mR mE : ℕ) :
    ∀ (l : List (String × ℚ)) (dc rc ec : ℕ) (r : RagResult),
      r ∈ collectResults docsMap refsMap examplesMap mD mR mE l dc rc ec →
      (mapGet docsMap r.id).isSome = true ∨
      (mapGet refsMap r.id).isSome = true ∨
      (mapGet examplesMap r.id).isSome = true := by
  intro l
  induction l with
  | nil => intro dc rc ec r hr; simp [collectResults] at hr
  | cons hd tl ih =>
    intro dc rc ec r hr
    obtain ⟨id, score⟩ := hd
    simp only [collectResults] at hr
    split at hr
    · simp at hr
    · split at hr
      · rename_i doc hdoc
        split at hr
        · rcases List.mem_cons.mp hr with rfl | hr'
          · left; simp [hdoc]
          · exact ih (dc + 1) rc ec r hr'
        · split at hr
          · rename_i ref href
            split at hr
            · rcases List.mem_cons.mp hr with rfl | hr'
              · right; left; simp [href]
              · exact ih dc (rc + 1) ec r hr'
            · split at hr
              · rename_i ex hex
                split at hr
                · rcases List.mem_cons.mp hr with rfl | hr'
                  · right; right; simp [hex]
                  · exact ih dc rc (ec + 1) r hr'
                · exact ih dc rc ec r hr
              · exact ih dc rc ec r hr
          · split at hr
            · rename_i ex hex
              split at hr
              · rcases List.mem_cons.mp hr with rfl | hr'
                · right; right; simp [hex]
                · exact ih dc rc (ec + 1) r hr'
              · exact ih dc rc ec r hr
            · exact ih dc rc ec r hr
      · split at hr
        · rename_i ref href
          split at hr
          · rcases List.mem_cons.mp hr with rfl | hr'
            · right; left; simp [href]
            · exact ih dc (rc + 1) ec r hr'
          · split at hr
            · rename_i ex hex
              split at hr
              · rcases List.mem_cons.mp hr with rfl | hr'
                · right; right; simp [hex]
                · exact ih dc rc (ec + 1) r hr'
              · exact ih dc rc ec r hr
            · exact ih dc rc ec r hr
        · split at hr
          · rename_i ex hex
            split at hr
            · rcases List.mem_cons.mp hr with rfl | hr'
              · right; right; simp [hex]
              · exact ih dc rc (ec + 1) r hr'
            · exact ih dc rc ec r hr
          · exact ih dc rc ec r hr

lemma collectResults_skip_unknown (docsMap : List (String × DocChunk))
    (refsMap : List (String × FunctionRef))
    (examplesMap : List (String × ExampleScript)) (mD mR mE : ℕ) (id : String)
    (h1 : mapGet docsMap id = none) (h2 : mapGet refsMap id = none)
    (h3 : mapGet examplesMap id = none) (score : ℚ)
    (rest : List (String × ℚ)) (dc rc ec : ℕ) :
    collectResults docsMap refsMap examplesMap mD mR mE ((id, score) :: rest)
        dc rc ec =
      collectResults docsMap refsMap examplesMap mD mR mE rest dc rc ec := by
  simp only [collectResults, h1, h2, h3]
  split
  · rename_i hcond
    cases rest with
    | nil => simp [collectResults]
    | cons hd2 tl2 =>
      obtain ⟨id2, s2⟩ := hd2
      simp only [collectResults]
      rw [if_pos hcond]
  · rfl

/-- C10: a scored document whose id occurs in none of the three loaded
collections is silently skipped by `searchRAG`: no result carries its id,
and dropping it from the scored list leaves the collection loop's output
(and hence every per-category count) unchanged. -/
theorem searchRAG_skips_unknown_id (query : String) (options : SearchOptions)
    (docsData : List DocChunk) (refsData : List FunctionRef)
    (examplesData : List ExampleScript) (indexData : BM25Index) (id : String)
    (h1 : ∀ d ∈ docsData, d.id ≠ id) (h2 : ∀ f ∈ refsData, f.id ≠ id)
    (h3 : ∀ e ∈ examplesData, e.id ≠ id) :
    (∀ r ∈ searchRAG query options docsData refsData examplesData indexData,
      r.id ≠ id) ∧
    (∀ (score : ℚ) (rest : List (String × ℚ)) (dc rc ec : ℕ),
      collectResults (docsData.map fun d => (d.id, d))
          (refsData.map fun f => (f.id, f))
          (examplesData.map fun e => (e.id, e)) (options.maxDocs.getD 3)
          (options.maxRefs.getD 5) (options.maxExamples.getD 2)
          ((id, score) :: rest) dc rc ec =
        collectResults (docsData.map fun d => (d.id, d))
          (refsData.map fun f => (f.id, f))
          (examplesData.map fun e => (e.id, e)) (options.maxDocs.getD 3)
          (options.maxRefs.getD 5) (options.maxExamples.getD 2)
          rest dc rc ec) := by
  have hd1 : mapGet (docsData.map fun d => (d.id, d)) id = none := by
    apply mapGet_eq_none
    intro e he
    obtain ⟨d, hd, rfl⟩ := List.mem_map.mp he
    exact h1 d hd
  have hd2 : mapGet (refsData.map fun f => (f.id, f)) id = none := by
    apply mapGet_eq_none
    intro e he
    obtain ⟨f, hf, rfl⟩ := List.mem_map.mp he
    exact h2 f hf
  have hd3 : mapGet (examplesData.map fun e => (e.id, e)) id = none := by
    apply mapGet_eq_none
    intro e he
    obtain ⟨x, hx, rfl⟩ := List.mem_map.mp he
    exact h3 x hx
  constructor
  · intro r hr heq
    by_cases h : indexData.totalDocs = 0
    · simp [searchRAG, h] at hr
    · have hs : searchRAG query options docsData refsData examplesData indexData =
        collectResults (docsData.map fun d => (d.id, d))
          (refsData.map fun r => (r.id, r)) (examplesData.map fun e => (e.id, e))
          (options.maxDocs.getD 3) (options.maxRefs.getD 5)
          (options.maxExamples.getD 2)
          (sortByScoreDesc
            ((indexData.documents.map fun d =>
              (d.1, boostedScore (tokenize query) (extractFunctionMentions query)
                indexData d.2)).filter fun p => 0 < p.2)) 0 0 0 := by
        simp [searchRAG, h]
      rw [hs] at hr
      rcases collectResults_mem_isSome _ _ _ _ _ _ _ 0 0 0 r hr with hc | hc | hc <;>
        rw [heq] at hc
      · rw [hd1] at hc; simp at hc
      · rw [hd2] at hc; simp at hc
      · rw [hd3] at hc; simp at hc
  · intro score rest dc rc ec
    exact collectResults_skip_unknown _ _ _ _ _ _ id hd1 hd2 hd3 score rest dc rc ec

/-- Witness for C10: the scored id `"ghost"` of `idx0` is in no collection;
prepending it to a scored list leaves the collection loop unchanged, and no
result of a real search carries it. -/
theorem searchRAG_skips_unknown_id_witness :
    collectResults (docs0.map fun d => (d.id, d)) (refs0.map fun f => (f.id, f))
        (([] : List ExampleScript).map fun e => (e.id, e)) 3 5 2
        [("ghost", 1)] 0 0 0 =
      collectResults (docs0.map fun d => (d.id, d)) (refs0.map fun f => (f.id, f))
        (([] : List ExampleScript).map fun e => (e.id, e)) 3 5 2 [] 0 0 0 :=
  (searchRAG_skips_unknown_id "aa" ⟨none, none, none⟩ docs0 refs0 [] idx0
    "ghost" (by decide) (by decide) (by decide)).2 1 [] 0 0 0

lemma trimChars_eq_nil_of_all_space (l : List Char)
    (h : ∀ c ∈ l, isSpaceChar c = true) : trimChars l = [] := by
  unfold trimChars
  rw [List.dropWhile_eq_nil_iff.mpr h]
  rfl

/-- C8: `validatePineScript` returns `[]` for every empty or
whitespace-only code string and every version, before any rule module
contributes a finding. -/
theorem validatePineScript_blank (code : String) (version : Version)
    (h : ∀ c ∈ code.data, isSpaceChar c = true) :
    validatePineScript code version = [] := by
  unfold validatePineScript
  rw [if_pos (trimChars_eq_nil_of_all_space code.data h)]

/-- Witness for C8 on a concrete whitespace-only script. -/
theorem validatePineScript_blank_witness :
    validatePineScript "  \t\n " Version.v6 = [] :=
  validatePineScript_blank "  \t\n " Version.v6 (by decide)

/-- C5 (counterexample): a script with exactly 64 plot-family calls does
yield a limit finding (`checkLimits` warns on the whole band `(50, 64]`,
64 included). -/
theorem checkLimits_64_counterexample :
    checkLimits (plotScript 64) ≠ [] := by
  set_option maxRecDepth 40000 in decide

/-- C5 (amended): 64 plot-family calls yield the `plot-limit-warning`/`warn`
finding whose message contains "64" (the warn band is `50 < n ≤ 64`);
65 calls yield `plot-limit-exceeded`/`error` with "65" in the message; 55
calls yield `plot-limit-warning`/`warn` with "55" in the message. -/
theorem checkLimits_thresholds :
    checkLimits (plotScript 64) =
      [⟨"plot-limit-warning", Status.warn,
        "64 plot calls approaching TradingView limit of 64", none,
        some "Consider reducing plot calls to stay safely under the limit"⟩] ∧
    checkLimits (plotScript 65) =
      [⟨"plot-limit-exceeded", Status.error,
        "65 plot calls exceed TradingView limit of 64", none,
        some "Reduce the number of plot/hline/fill/bgcolor calls"⟩] ∧
    checkLimits (plotScript 55) =
      [⟨"plot-limit-warning", Status.warn,
        "55 plot calls approaching TradingView limit of 64", none,
        some "Consider reducing plot calls to stay safely under the limit"⟩] := by
  refine ⟨?_, ?_, ?_⟩ <;> set_option maxRecDepth 40000 in decide

/-- C9 (counterexample): `label.` is not one of the fifteen namespaces of
the mention regex, so the query `"label.new"` yields no function mention at
all — the extractor's allow-list is strictly smaller than keyword
extraction's. -/
theorem extractFunctionMentions_label_counterexample :
    extractFunctionMentions "label.new" = [] ∧
      "label.new" ∉ extractFunctionMentions "label.new" := by
  refine ⟨by decide, by decide⟩

lemma tryNamespaceMention_sound :
    ∀ (nss : List (List Char)) (l m a : List Char),
      tryNamespaceMention nss l = some (m, a) →
      ∃ ns ∈ nss, ∃ w : List Char, w ≠ [] ∧ (∀ c ∈ w, isWordChar c = true) ∧
        m = ns ++ '.' :: w := by
  intro nss
  induction nss with
  | nil => intro l m a h; simp [tryNamespaceMention] at h
  | cons ns more ih =>
    intro l m a h
    simp only [tryNamespaceMention] at h
    split at h
    · split at h
      · split at h
        · obtain ⟨ns', hns', hw⟩ := ih l m a h
          exact ⟨ns', List.mem_cons_of_mem ns hns', hw⟩
        · rename_i rest hrest hne
          obtain ⟨hm, ha⟩ := Prod.mk.injEq .. ▸ Option.some.injEq .. ▸ h
          refine ⟨ns, List.mem_cons_self ns more,
            rest.takeWhile isWordChar, ?_, ?_, hm.symm⟩
          · simpa using hne
          · intro c hc; exact List.mem_takeWhile_imp hc
      · obtain ⟨ns', hns', hw⟩ := ih l m a h
        exact ⟨ns', List.mem_cons_of_mem ns hns', hw⟩
    · obtain ⟨ns', hns', hw⟩ := ih l m a h
      exact ⟨ns', List.mem_cons_of_mem ns hns', hw⟩

lemma tryStandaloneMention_sound :
    ∀ (nss : List (List Char)) (l m a : List Char),
      tryStandaloneMention nss l = some (m, a) → m ∈ nss := by
  intro nss
  induction nss with
  | nil => intro l m a h; simp [tryStandaloneMention] at h
  | cons n more ih =>
    intro l m a h
    simp only [tryStandaloneMention] at h
    split at h
    · split at h
      · obtain ⟨hm, ha⟩ := Prod.mk.injEq .. ▸ Option.some.injEq .. ▸ h
        exact hm ▸ List.mem_cons_self n more
      · split at h
        · exact List.mem_cons_of_mem n (ih l m a h)
        · obtain ⟨hm, ha⟩ := Prod.mk.injEq .. ▸ Option.some.injEq .. ▸ h
          exact hm ▸ List.mem_cons_self n more
    · exact List.mem_cons_of_mem n (ih l m a h)

lemma scanNamespaceMentions_sound :
    ∀ (fuel : ℕ) (l : List Char) (pw : Bool) (m : List Char),
      m ∈ scanNamespaceMentions fuel l pw →
      ∃ ns ∈ MENTION_NAMESPACES, ∃ w : List Char,
        w ≠ [] ∧ (∀ c ∈ w, isWordChar c = true) ∧ m = ns ++ '.' :: w := by
  intro fuel
  induction fuel with
  | zero => intro l pw m h; simp [scanNamespaceMentions] at h
  | succ fuel ih =>
    intro l pw m h
    cases l with
    | nil => simp [scanNamespaceMentions] at h
    | cons c rest =>
      cases pw with
      | true =>
        simp only [scanNamespaceMentions] at h
        exact ih rest (isWordChar c) m h
      | false =>
        cases htry : tryNamespaceMention MENTION_NAMESPACES (c :: rest) with
        | none =>
          simp only [scanNamespaceMentions, htry] at h
          exact ih rest (isWordChar c) m h
        | some p =>
          obtain ⟨m', after⟩ := p
          simp only [scanNamespaceMentions, htry] at h
          rcases List.mem_cons.mp h with rfl | h'
          · exact tryNamespaceMention_sound MENTION_NAMESPACES (c :: rest) m after htry
          · exact ih after true m h'

lemma scanStandaloneMentions_sound :
    ∀ (fuel : ℕ) (l : List Char) (pw : Bool) (m : List Char),
      m ∈ scanStandaloneMentions fuel l pw → m ∈ MENTION_STANDALONE := by
  intro fuel
  induction fuel with
  | zero => intro l pw m h; simp [scanStandaloneMentions] at h
  | succ fuel ih =>
    intro l pw m h
    cases l with
    | nil => simp [scanStandaloneMentions] at h
    | cons c rest =>
      cases pw with
      | true =>
        simp only [scanStandaloneMentions] at h
        exact ih rest (isWordChar c) m h
      | false =>
        cases htry : tryStandaloneMention MENTION_STANDALONE (c :: rest) with
        | none =>
          simp only [scanStandaloneMentions, htry] at h
          exact ih rest (isWordChar c) m h
        | some p =>
          obtain ⟨m', after⟩ := p
          simp only [scanStandaloneMentions, htry] at h
          rcases List.mem_cons.mp h with rfl | h'
          · exact tryStandaloneMention_sound MENTION_STANDALONE (c :: rest) m after htry
          · exact ih after true m h'

/-- C9 (amended): every function mention extracted from a query is either
`ns.word` for one of the fifteen namespaces
`ta, math, str, array, matrix, map, request, ticker, timeframe, chart,
runtime, log, strategy, input, color` — not the larger keyword-extraction
allow-list, which additionally has `plot`, `hline`, `fill`, `indicator`,
`label`, `line`, `box`, `table` — or one of the nine standalone built-ins
`plot, hline, fill, bgcolor, barcolor, plotshape, indicator, strategy,
alert` matched as a whole word. -/
theorem extractFunctionMentions_shape (query s : String)
    (h : s ∈ extractFunctionMentions query) :
    (∃ ns ∈ MENTION_NAMESPACES, ∃ w : List Char,
      w ≠ [] ∧ (∀ c ∈ w, isWordChar c = true) ∧ s.data = ns ++ '.' :: w) ∨
    s.data ∈ MENTION_STANDALONE := by
  rcases List.mem_append.mp h with h' | h'
  · obtain ⟨m, hm, rfl⟩ := List.mem_map.mp h'
    left
    simpa using scanNamespaceMentions_sound query.data.length query.data false m hm
  · obtain ⟨m, hm, rfl⟩ := List.mem_map.mp h'
    right
    simpa using scanStandaloneMentions_sound query.data.length query.data false m hm

/-- Witness for C9 (amended): the mention `"ta.sma"` extracted from the
query `"ta.sma"` has the required shape. -/
theorem extractFunctionMentions_shape_witness :
    ("ta.sma" ∈ extractFunctionMentions "ta.sma") ∧
      ((∃ ns ∈ MENTION_NAMESPACES, ∃ w : List Char,
        w ≠ [] ∧ (∀ c ∈ w, isWordChar c = true) ∧
          "ta.sma".data = ns ++ '.' :: w) ∨
        "ta.sma".data ∈ MENTION_STANDALONE) :=
  ⟨by decide, extractFunctionMentions_shape "ta.sma" "ta.sma" (by decide)⟩

lemma isPrefixOf_getElem_eq (p l : List Char) (k m : ℕ)
    (hp : p.isPrefixOf (l.drop k) = true) (hm : m < p.length) :
    l[k + m]? = p[m]? := by
  obtain ⟨t, ht⟩ := List.isPrefixOf_iff_prefix.mp hp
  rw [← List.getElem?_drop, ← ht, List.getElem?_append, if_pos hm]

lemma isPrefixOf_drop_length_le (p l : List Char) (k : ℕ)
    (hp : p.isPrefixOf (l.drop k) = true) :
    p.length ≤ l.length - k := by
  have := (List.isPrefixOf_iff_prefix.mp hp).length_le
  simpa using this

lemma bareCallTest_eq_false_of_namespaced (name pre ln : List Char)
    (hlen2 : 2 ≤ pre.length)
    (hw : ∃ w, isWordChar w = true ∧ pre[pre.length - 2]? = some w)
    (hdot : pre[pre.length - 1]? = some '.')
    (honly : ∀ j, j < ln.length → name.isPrefixOf (ln.drop j) = true →
      pre.length ≤ j ∧ pre.isPrefixOf (ln.drop (j - pre.length)) = true) :
    bareCallTest name ln = false := by
  cases h : bareCallTest name ln with
  | false => rfl
  | true =>
    exfalso
    unfold bareCallTest at h
    obtain ⟨i, hi, hcond⟩ := List.any_eq_true.mp h
    have hilt : i < ln.length := List.mem_range.mp hi
    rw [Bool.and_assoc, Bool.and_eq_true, Bool.and_eq_true] at hcond
    obtain ⟨hnb, hpref, hsp⟩ := hcond
    obtain ⟨hle, hpre⟩ := honly i hilt hpref
    obtain ⟨w, hwword, hw2⟩ := hw
    have e1 : ln[i - 2]? = some w := by
      have e := isPrefixOf_getElem_eq pre ln (i - pre.length)
        (pre.length - 2) hpre (by omega)
      have en : i - pre.length + (pre.length - 2) = i - 2 := by omega
      rw [en] at e
      rw [e, hw2]
    have e2 : ln[i - 1]? = some '.' := by
      have e := isPrefixOf_getElem_eq pre ln (i - pre.length)
        (pre.length - 1) hpre (by omega)
      have en : i - pre.length + (pre.length - 1) = i - 1 := by omega
      rw [en] at e
      rw [e, hdot]
    have hblocked : dotLookbehindBlocked ln i = true := by
      unfold dotLookbehindBlocked
      rw [e1, e2]
      simp [hwword]
      omega
    rw [hblocked] at hnb
    simp at hnb

lemma bareCallTest_eq_true_of_call (name line : List Char) (j : ℕ)
    (hj : (name ++ ['(']).isPrefixOf (line.drop j) = true)
    (hblock : dotLookbehindBlocked line j = false) :
    bareCallTest name line = true := by
  unfold bareCallTest
  apply List.any_eq_true.mpr
  have hlen := isPrefixOf_drop_length_le (name ++ ['(']) line j hj
  simp only [List.length_append, List.length_cons, List.length_nil] at hlen
  refine ⟨j, List.mem_range.mpr (by omega), ?_⟩
  rw [Bool.and_assoc, Bool.and_eq_true, Bool.and_eq_true]
  obtain ⟨t, ht⟩ := List.isPrefixOf_iff_prefix.mp hj
  refine ⟨by rw [hblock]; rfl, ?_, ?_⟩
  · exact List.isPrefixOf_iff_prefix.mpr
      (List.IsPrefix.trans ⟨['('], rfl⟩ ⟨t, ht⟩)
  · have hd : line.drop (j + name.length) = '(' :: t := by
      have : line.drop (j + name.length) = (line.drop j).drop name.length := by
        rw [List.drop_drop]
      rw [this, ← ht, List.append_assoc]
      exact List.drop_left name ('(' :: t)
    rw [hd]
    simp [spacesThenChar, isSpaceChar]

lemma checkDeprecated_mem_emits (code : List Char) (i : ℕ) (line : List Char)
    (dp : DeprecatedPattern) (hline : (splitLines code)[i]? = some line)
    (hdp : dp ∈ DEPRECATED_V6) (hc : isCommentLine line = false)
    (hpat : dp.pattern line = true) :
    (⟨dp.rule, Status.error, dp.message, some (i + 1), some dp.suggestion⟩ :
      ValidationResult) ∈ checkDeprecated code Version.v6 := by
  unfold checkDeprecated
  rw [if_neg (by simp)]
  apply List.mem_flatMap.mpr
  refine ⟨(i, line), List.mem_enum_iff_getElem?.mpr hline, ?_⟩
  simp only [hc, Bool.false_eq_true, if_false]
  exact List.mem_filterMap.mpr ⟨dp, hdp, by rw [if_pos hpat]⟩

lemma checkDeprecated_finding_shape (code : List Char) (version : Version)
    (r : ValidationResult) (hr : r ∈ checkDeprecated code version) :
    ∃ i line dp, dp ∈ DEPRECATED_V6 ∧
      r = ⟨dp.rule, Status.error, dp.message, some (i + 1), some dp.suggestion⟩ ∧
      (splitLines code)[i]? = some line ∧ isCommentLine line = false ∧
      dp.pattern line = true := by
  unfold checkDeprecated at hr
  split at hr
  · simp at hr
  · obtain ⟨p, hp, hin⟩ := List.mem_flatMap.mp hr
    obtain ⟨i, line⟩ := p
    split at hin
    · simp at hin
    · obtain ⟨dp, hdp, hsome⟩ := List.mem_filterMap.mp hin
      split at hsome
      · refine ⟨i, line, dp, hdp, ?_, ?_, ?_, ?_⟩
        · exact (Option.some.injEq .. ▸ hsome).symm
        · exact List.mem_enum_iff_getElem?.mp hp
        · rename_i hcomment _
          simpa using hcomment
        · rename_i hpat
          simpa using hpat
      · simp at hsome

lemma DEPRECATED_V6_security_pattern :
    ∀ dp ∈ DEPRECATED_V6, dp.rule = "deprecated-security" →
      dp.pattern = bareCallTest "security".data := by
  intro dp hdp hrule
  simp only [DEPRECATED_V6, List.mem_cons, List.not_mem_nil, or_false] at hdp
  rcases hdp with rfl | rfl | rfl | rfl | rfl | rfl | rfl | rfl <;>
    first | rfl | simp at hrule

lemma DEPRECATED_V6_tostring_pattern :
    ∀ dp ∈ DEPRECATED_V6, dp.rule = "deprecated-tostring" →
      dp.pattern = bareCallTest "tostring".data := by
  intro dp hdp hrule
  simp only [DEPRECATED_V6, List.mem_cons, List.not_mem_nil, or_false] at hdp
  rcases hdp with rfl | rfl | rfl | rfl | rfl | rfl | rfl | rfl <;>
    first | rfl | simp at hrule

lemma checkDeprecated_no_finding_of_only_namespaced (code : List Char)
    (i : ℕ) (ln name pre : List Char) (rule : String)
    (hpattern : ∀ dp ∈ DEPRECATED_V6, dp.rule = rule →
      dp.pattern = bareCallTest name)
    (hlen2 : 2 ≤ pre.length)
    (hw : ∃ w, isWordChar w = true ∧ pre[pre.length - 2]? = some w)
    (hdot : pre[pre.length - 1]? = some '.')
    (hln : (splitLines code)[i]? = some ln)
    (honly : ∀ j, j < ln.length → name.isPrefixOf (ln.drop j) = true →
      pre.length ≤ j ∧ pre.isPrefixOf (ln.drop (j - pre.length)) = true) :
    ∀ r ∈ checkDeprecated code Version.v6,
      ¬(r.rule = rule ∧ r.line = some (i + 1)) := by
  intro r hr hand
  obtain ⟨hrule, hlineq⟩ := hand
  obtain ⟨i', ln', dp, hdp, rfl, hln', hc', hpat⟩ :=
    checkDeprecated_finding_shape code Version.v6 r hr
  have hii : i' = i := by simpa using hlineq
  subst hii
  have hll : ln' = ln := by
    rw [hln] at hln'
    exact (Option.some.injEq .. ▸ hln').symm
  rw [hll] at hpat
  have hdpat := hpattern dp hdp (by simpa using hrule)
  rw [hdpat] at hpat
  have hfalse := bareCallTest_eq_false_of_namespaced name pre ln hlen2 hw hdot honly
  rw [hfalse] at hpat
  simp at hpat

lemma checkDeprecated_finding_of_bare (code : List Char) (i : ℕ)
    (ln name : List Char) (dp : DeprecatedPattern) (j : ℕ)
    (hdp : dp ∈ DEPRECATED_V6) (hdpat : dp.pattern = bareCallTest name)
    (hln : (splitLines code)[i]? = some ln) (hc : isCommentLine ln = false)
    (hj : (name ++ ['(']).isPrefixOf (ln.drop j) = true)
    (hblock : dotLookbehindBlocked ln j = false) :
    ∃ r ∈ checkDeprecated code Version.v6,
      r.rule = dp.rule ∧ r.line = some (i + 1) := by
  have hpat : dp.pattern ln = true := by
    rw [hdpat]
    exact bareCallTest_eq_true_of_call name ln j hj hblock
  exact ⟨_, checkDeprecated_mem_emits code i ln dp hln hdp hc hpat, rfl, rfl⟩

/-- C7: under version `v6`, `checkDeprecated` never emits a
`deprecated-security` finding for a line on which every occurrence of
`security` is namespaced as `request.security`, and always emits one for a
non-comment line containing a bare `security(` call; analogously,
`str.tostring` never triggers `deprecated-tostring` while a bare
`tostring(` on a non-comment line does. -/
theorem checkDeprecated_bare_vs_namespaced (code : List Char) :
    (∀ i ln, (splitLines code)[i]? = some ln →
      (∀ j, j < ln.length → ("security".data).isPrefixOf (ln.drop j) = true →
        8 ≤ j ∧ ("request.".data).isPrefixOf (ln.drop (j - 8)) = true) →
      ∀ r ∈ checkDeprecated code Version.v6,
        ¬(r.rule = "deprecated-security" ∧ r.line = some (i + 1))) ∧
    (∀ i ln, (splitLines code)[i]? = some ln → isCommentLine ln = false →
      (∃ j, ("security(".data).isPrefixOf (ln.drop j) = true ∧
        dotLookbehindBlocked ln j = false) →
      ∃ r ∈ checkDeprecated code Version.v6,
        r.rule = "deprecated-security" ∧ r.line = some (i + 1)) ∧
    (∀ i ln, (splitLines code)[i]? = some ln →
      (∀ j, j < ln.length → ("tostring".data).isPrefixOf (ln.drop j) = true →
        4 ≤ j ∧ ("str.".data).isPrefixOf (ln.drop (j - 4)) = true) →
      ∀ r ∈ checkDeprecated code Version.v6,
        ¬(r.rule = "deprecated-tostring" ∧ r.line = some (i + 1))) ∧
    (∀ i ln, (splitLines code)[i]? = some ln → isCommentLine ln = false →
      (∃ j, ("tostring(".data).isPrefixOf (ln.drop j) = true ∧
        dotLookbehindBlocked ln j = false) →
      ∃ r ∈ checkDeprecated code Version.v6,
        r.rule = "deprecated-tostring" ∧ r.line = some (i + 1)) := by
  refine ⟨?_, ?_, ?_, ?_⟩
  · intro i ln hln honly
    exact checkDeprecated_no_finding_of_only_namespaced code i ln
      "security".data "request.".data "deprecated-security"
      DEPRECATED_V6_security_pattern (by decide)
      ⟨'t', by decide, by decide⟩ (by decide) hln honly
  · intro i ln hln hc hex
    obtain ⟨j, hj, hblock⟩ := hex
    exact checkDeprecated_finding_of_bare code i ln "security".data
      ⟨bareCallTest "security".data, "deprecated-security",
        "security() is deprecated in v6", "Use request.security() instead"⟩ j
      (by unfold DEPRECATED_V6; exact List.mem_cons_self _ _) rfl hln hc hj hblock
  · intro i ln hln honly
    exact checkDeprecated_no_finding_of_only_namespaced code i ln
      "tostring".data "str.".data "deprecated-tostring"
      DEPRECATED_V6_tostring_pattern (by decide)
      ⟨'r', by decide, by decide⟩ (by decide) hln honly
  · intro i ln hln hc hex
    obtain ⟨j, hj, hblock⟩ := hex
    exact checkDeprecated_finding_of_bare code i ln "tostring".data
      ⟨bareCallTest "tostring".data, "deprecated-tostring",
        "tostring() is deprecated in v6", "Use str.tostring() instead"⟩ j
      (by unfold DEPRECATED_V6; simp) rfl hln hc hj hblock

/-- Witness for C7 on `secCode`: `request.security(x)` on line 1 yields no
`deprecated-security` finding, bare `security(y)` on line 2 yields one,
`str.tostring(z)` on line 3 yields no `deprecated-tostring` finding, and
bare `tostring(w)` on line 4 yields one. -/
theorem checkDeprecated_bare_vs_namespaced_witness :
    (∀ r ∈ checkDeprecated secCode Version.v6,
      ¬(r.rule = "deprecated-security" ∧ r.line = some (0 + 1))) ∧
    (∃ r ∈ checkDeprecated secCode Version.v6,
      r.rule = "deprecated-security" ∧ r.line = some (1 + 1)) ∧
    (∀ r ∈ checkDeprecated secCode Version.v6,
      ¬(r.rule = "deprecated-tostring" ∧ r.line = some (2 + 1))) ∧
    (∃ r ∈ checkDeprecated secCode Version.v6,
      r.rule = "deprecated-tostring" ∧ r.line = some (3 + 1)) :=
  ⟨(checkDeprecated_bare_vs_namespaced secCode).1 0
      "request.security(x)".data (by decide) (by decide),
   (checkDeprecated_bare_vs_namespaced secCode).2.1 1
      "security(y)".data (by decide) (by decide) ⟨0, by decide, by decide⟩,
   (checkDeprecated_bare_vs_namespaced secCode).2.2.1 2
      "str.tostring(z)".data (by decide) (by decide),
   (checkDeprecated_bare_vs_namespaced secCode).2.2.2 3
      "tostring(w)".data (by decide) (by decide) ⟨0, by decide, by decide⟩⟩

/-- C4 (counterexample): the structure module counts parentheses over the
whole text, comment lines included — adding the comment line `// (` to an
otherwise clean script produces an `unbalanced-parens` finding that the same
script without the comment line does not have. -/
theorem checkStructure_comment_counterexample :
    (∃ r ∈ checkStructure
        "//@version=6\nindicator(\"x\")\nplot(close)\n// (".data,
      r.rule = "unbalanced-parens") ∧
    (∀ r ∈ checkStructure "//@version=6\nindicator(\"x\")\nplot(close)".data,
      r.rule ≠ "unbalanced-parens") := by
  constructor
  · refine ⟨⟨"unbalanced-parens", Status.error,
      "Unbalanced parentheses: 3 opening, 2 closing", none, none⟩, ?_, rfl⟩
    decide
  · decide

lemma checkV6Specific_finding_line (code : List Char) (version : Version)
    (r : ValidationResult) (hr : r ∈ checkV6Specific code version) :
    ∃ i ln, r.line = some (i + 1) ∧ (splitLines code)[i]? = some ln ∧
      isCommentLine ln = false := by
  unfold checkV6Specific at hr
  split at hr
  · simp at hr
  · rcases List.mem_append.mp hr with hr' | hr'
    · rcases List.mem_append.mp hr' with hr'' | hr''
      · -- na-cast findings
        obtain ⟨p, hp, hin⟩ := List.mem_flatMap.mp hr''
        obtain ⟨i, ln⟩ := p
        split at hin
        · simp at hin
        · rename_i hcm
          rcases List.mem_append.mp hin with h1 | h1
          · split at h1
            · simp at h1
              subst h1
              exact ⟨i, ln, rfl, List.mem_enum_iff_getElem?.mp hp,
                by simpa using hcm⟩
            · simp at h1
          · split at h1
            · simp at h1
              subst h1
              exact ⟨i, ln, rfl, List.mem_enum_iff_getElem?.mp hp,
                by simpa using hcm⟩
            · simp at h1
      · -- fill-mixed-types findings
        obtain ⟨p, hp, hin⟩ := List.mem_flatMap.mp hr''
        obtain ⟨i, ln⟩ := p
        split at hin
        · simp at hin
        · rename_i hcm
          cases hcap : fillArgsCapture ln with
          | none => simp only [hcap] at hin; simp at hin
          | some ab =>
            obtain ⟨a, b⟩ := ab
            simp only [hcap] at hin
            split at hin
            · simp at hin
              subst hin
              exact ⟨i, ln, rfl, List.mem_enum_iff_getElem?.mp hp,
                by simpa using hcm⟩
            · simp at hin
    · -- input-def-param findings
      obtain ⟨p, hp, hin⟩ := List.mem_flatMap.mp hr'
      obtain ⟨i, ln⟩ := p
      split at hin
      · simp at hin
      · rename_i hcm
        split at hin
        · simp at hin
          subst hin
          exact ⟨i, ln, rfl, List.mem_enum_iff_getElem?.mp hp,
            by simpa using hcm⟩
        · simp at hin

lemma mem_ite_list_cases {α : Type} {c : Prop} [Decidable c] {x : α}
    {l1 l2 : List α} (h : x ∈ if c then l1 else l2) :
    (c ∧ x ∈ l1) ∨ (¬c ∧ x ∈ l2) := by
  split at h
  · exact Or.inl ⟨by assumption, h⟩
  · exact Or.inr ⟨by assumption, h⟩

lemma checkStructure_unbalanced_string_line (code : List Char)
    (r : ValidationResult) (hr : r ∈ checkStructure code)
    (hrule : r.rule = "unbalanced-string") :
    ∃ i ln, r.line = some (i + 1) ∧ (splitLines code)[i]? = some ln ∧
      isCommentLine ln = false := by
  unfold checkStructure at hr
  dsimp only at hr
  split at hr
  · simp at hr
    subst hr
    simp at hrule
  · rcases mem_ite_list_cases hr with ⟨_, hpass⟩ | ⟨_, hres⟩
    · simp at hpass
      subst hpass
      simp at hrule
    · rcases List.mem_append.mp hres with h5 | hstr
      · rcases List.mem_append.mp h5 with h4 | h4'
        · rcases List.mem_append.mp h4 with h3 | h3'
          · rcases List.mem_append.mp h3 with h2 | h2'
            · rcases List.mem_append.mp h2 with h1 | h1'
              · rcases mem_ite_list_cases h1 with ⟨_, h⟩ | ⟨_, h⟩ <;> simp at h
                subst h
                simp at hrule
              · rcases mem_ite_list_cases h1' with ⟨_, h⟩ | ⟨_, h⟩ <;> simp at h
                subst h
                simp at hrule
            · rcases mem_ite_list_cases h2' with ⟨_, h⟩ | ⟨_, h⟩ <;> simp at h
              subst h
              simp at hrule
          · rcases mem_ite_list_cases h3' with ⟨_, h⟩ | ⟨_, h⟩ <;> simp at h
            subst h
            simp at hrule
        · rcases mem_ite_list_cases h4' with ⟨_, h⟩ | ⟨_, h⟩ <;> simp at h
          subst h
          simp at hrule
      · obtain ⟨p, hp, hin⟩ := List.mem_flatMap.mp hstr
        obtain ⟨i, ln⟩ := p
        rcases mem_ite_list_cases hin with ⟨_, h⟩ | ⟨hcm, hin2⟩
        · simp at h
        · rcases mem_ite_list_cases hin2 with ⟨_, h⟩ | ⟨_, h⟩
          · simp at h
            subst h
            exact ⟨i, ln, rfl, List.mem_enum_iff_getElem?.mp hp,
              by simpa using hcm⟩
          · simp at h

/-- C4 (amended): the deprecated-pattern and version-specific modules skip
comment lines entirely (every finding they emit is located at a non-comment
line), and so does the structure module's per-line unbalanced-string check;
but the structure module's version, declaration, parenthesis and bracket
checks and the limits module scan the whole text, comment lines included, so
a comment line can cause their findings. -/
theorem perLine_findings_skip_comment_lines (code : List Char)
    (version : Version) (r : ValidationResult)
    (h : r ∈ checkDeprecated code version ∨ r ∈ checkV6Specific code version ∨
      (r ∈ checkStructure code ∧ r.rule = "unbalanced-string")) :
    ∃ i ln, r.line = some (i + 1) ∧ (splitLines code)[i]? = some ln ∧
      isCommentLine ln = false := by
  rcases h with h | h | ⟨h, hrule⟩
  · obtain ⟨i, ln, dp, _, rfl, hline, hc, _⟩ :=
      checkDeprecated_finding_shape code version r h
    exact ⟨i, ln, rfl, hline, hc⟩
  · exact checkV6Specific_finding_line code version r h
  · exact checkStructure_unbalanced_string_line code r h hrule

/-- Witness for C4 (amended): the `deprecated-security` finding that
`secCode` produces on its second line sits at a non-comment line. -/
theorem perLine_findings_skip_comment_lines_witness :
    ∃ i ln,
      (⟨"deprecated-security", Status.error, "security() is deprecated in v6",
        some 2, some "Use request.security() instead"⟩ :
          ValidationResult).line = some (i + 1) ∧
      (splitLines secCode)[i]? = some ln ∧ isCommentLine ln = false :=
  perLine_findings_skip_comment_lines secCode Version.v6
    ⟨"deprecated-security", Status.error, "security() is deprecated in v6",
      some 2, some "Use request.security() instead"⟩ (Or.inl (by decide))

end PineAI





